import Mathlib

/-!
Verification of the rag-rbac repository (src/app/rag.py, src/app/main.py,
src/app/database.py) against its natural-language specification.

The Python source is shallowly embedded: pure text processing becomes Lean
functions on List Char, and every external effect (embedding service,
generation service, Qdrant vector store, SQLite) is made explicit, either as
a function parameter or as a recorded trace field, so that the access-control
filters and call sequences that the claims speak about are visible values.
-/

namespace RagRbac

/-- Python regex whitespace class \s restricted to ASCII: space, tab,
newline, carriage return, vertical tab, form feed. -/
def wsChar (c : Char) : Bool :=
  c == ' ' || c == '\t' || c == '\n' || c == '\r' || c == '\x0b' || c == '\x0c'

/-- Embeds re.sub applied to the pattern of one-or-more whitespace with a
single space replacement (rag.py line 74): every maximal run of whitespace
characters becomes one space character.  A whitespace character whose
successor is also whitespace is dropped; the last character of each run is
rewritten to a space. -/
def collapseWS : List Char → List Char
  | [] => []
  | a :: rest =>
    if wsChar a then
      match rest with
      | [] => [' ']
      | b :: _ => if wsChar b then collapseWS rest else ' ' :: collapseWS rest
    else a :: collapseWS rest

/-- Embeds the Python str.strip method (no arguments): remove leading and
trailing whitespace. -/
def pyStrip (l : List Char) : List Char :=
  List.rdropWhile wsChar (List.dropWhile wsChar l)

/-- CHUNK_SIZE from rag.py line 36. -/
def CHUNK_SIZE : Nat := 500

/-- CHUNK_OVERLAP from rag.py line 37. -/
def CHUNK_OVERLAP : Nat := 50

/-- The while loop of chunk_text (rag.py lines 76-82), with an explicit fuel
argument standing for the loop iteration bound.  Each iteration advances
start by CHUNK_SIZE - CHUNK_OVERLAP = 450 >= 1, so any fuel of at least
text.length + 1 is enough for the loop to reach its exit condition; the
fuel-exhausted base case is then unreachable. -/
def chunkLoop : Nat → List Char → Nat → List (List Char)
  | 0, _, _ => []
  | fuel + 1, text, start =>
    if start < text.length then
      let chunk := pyStrip ((text.drop start).take CHUNK_SIZE)
      (if chunk = [] then [] else [chunk])
        ++ chunkLoop fuel text (start + (CHUNK_SIZE - CHUNK_OVERLAP))
    else []

/-- Embeds chunk_text (rag.py lines 72-83): normalize whitespace runs to
single spaces, strip the ends, then slide a 500-character window advancing
by 450, emitting the stripped window whenever it is nonempty. -/
def chunk_text (text : List Char) : List (List Char) :=
  let t := pyStrip (collapseWS text)
  chunkLoop (t.length + 1) t 0

/-!
Embedding of the Qdrant filter model and of the query, deletion and stats
paths of rag.py, and of the endpoint glue in main.py.  External services are
function parameters; effects are recorded in explicit trace fields.
-/

/-- A qdrant FieldCondition with a MatchValue, as built in rag.py: either an
equality condition on the user_id payload field or on the filename field. -/
inductive FieldCondition where
  | userIdEq (uid : Int)
  | filenameEq (name : String)
deriving DecidableEq

/-- A qdrant Filter with a must list: the conjunction of its conditions. -/
structure Filter where
  must : List FieldCondition
deriving DecidableEq

/-- The payload stored with every vector (rag.py lines 160-165). -/
structure VectorPayload where
  user_id : Int
  filename : String
  chunk_index : Nat
  text : String
deriving DecidableEq

/-- One scored point returned by a qdrant similarity search.  The score is a
Python float, modelled as a rational. -/
structure ScoredPoint where
  payload : VectorPayload
  score : ℚ
deriving DecidableEq

def matchesCondition (r : VectorPayload) : FieldCondition → Bool
  | .userIdEq uid => r.user_id == uid
  | .filenameEq n => r.filename == n

/-- A payload satisfies a Filter when it satisfies every condition in the
must list. -/
def matchesFilter (r : VectorPayload) (f : Filter) : Bool :=
  f.must.all (matchesCondition r)

/-- The RBAC filter construction of query_rag (rag.py lines 195-205):
the admin role gets no filter; every other role gets a must condition
equating the user_id payload field with the caller identity. -/
def buildQueryFilter (role : String) (user_id : Int) : Option Filter :=
  if role = "admin" then none
  else some { must := [FieldCondition.userIdEq user_id] }

/-- One entry of the sources list of a query result (rag.py lines 229-234). -/
structure SourceEntry where
  filename : String
  chunk_index : Nat
  owner_id : Int
  score : ℚ
deriving DecidableEq

/-- The dict returned by query_rag. -/
structure RetrievalResult where
  answer : String
  sources : List SourceEntry
  chunks_searched : Nat
deriving DecidableEq

/-- Observable behaviour of one query_rag call: the returned dict, whether
the generation client was invoked, and the filter passed to the vector
store search. -/
structure QueryTrace where
  result : RetrievalResult
  llm_invoked : Bool
  filter_used : Option Filter
deriving DecidableEq

/-- Python round(x, 4) modelled on rationals (the claims never depend on the
value; the round-half-to-even detail of floats is immaterial here). -/
def round4 (q : ℚ) : ℚ := round (q * 10000) / 10000

/-- The fixed answer returned when the filtered search yields no points
(rag.py line 218). -/
def NO_DOCS_ANSWER : String :=
  "No relevant documents found in your accessible knowledge base."

/-- The system instruction of query_rag (rag.py lines 239-244). -/
def SYSTEM_PROMPT : String :=
  "You are a helpful assistant that answers questions based on the provided context. Only use information from the context below. If the context doesn\x27t contain enough information to answer, say so clearly. Cite which source documents you drew from."

/-- The source entry built from one retrieved point (rag.py lines 229-234). -/
def mkSource (p : ScoredPoint) : SourceEntry :=
  { filename := p.payload.filename
    chunk_index := p.payload.chunk_index
    owner_id := p.payload.user_id
    score := round4 p.score }

/-- The user prompt of query_rag (rag.py lines 245-250). -/
def buildPrompt (context question : String) : String :=
  "Context (retrieved documents):\n" ++ context ++ "\n\nQuestion: " ++ question
    ++ "\n\nAnswer based on the context above:"

/-- Embeds query_rag (rag.py lines 181-258).  The embedding of the question
and the similarity search are one external call, passed in as the search
function from filter and limit to ranked points; the generation client is
the llm parameter from prompt and system instruction to answer. -/
def query_rag (llm : String → String → String)
    (search : Option Filter → Nat → List ScoredPoint)
    (question : String) (user_id : Int) (role : String) (top_k : Nat) :
    QueryTrace :=
  let query_filter := buildQueryFilter role user_id
  let results := search query_filter top_k
  if results = [] then
    { result := { answer := NO_DOCS_ANSWER, sources := [], chunks_searched := 0 }
      llm_invoked := false
      filter_used := query_filter }
  else
    let sources := results.map mkSource
    let context := String.intercalate "\n\n---\n\n"
      (results.map (fun p => p.payload.text))
    { result :=
        { answer := llm (buildPrompt context question) SYSTEM_PROMPT
          sources := sources
          chunks_searched := results.length }
      llm_invoked := true
      filter_used := query_filter }

/-- Python truthiness of an optional string: None and the empty string are
falsy. -/
def pyTruthyStr : Option String → Bool
  | none => false
  | some s => !(s == "")

/-- Embeds delete_user_vectors (rag.py lines 263-274): returns the Filter
passed to the vector store delete call.  The filename condition is appended
only when the filename argument is truthy. -/
def delete_user_vectors (user_id : Int) (filename : Option String) : Filter :=
  { must := [FieldCondition.userIdEq user_id]
      ++ (if pyTruthyStr filename
          then [FieldCondition.filenameEq (filename.getD "")] else []) }

/-- Effect of a qdrant delete call on a store: every point whose payload
satisfies the filter is removed. -/
def runDelete (store : List VectorPayload) (f : Filter) : List VectorPayload :=
  store.filter (fun r => !(matchesFilter r f))

/-- One row of the documents table (database.py). -/
structure DocRecord where
  id : Nat
  user_id : Int
  filename : String
deriving DecidableEq

/-- Python truthiness of an optional int: None and 0 are falsy (the
database.delete_document ownership check is guarded by if user_id). -/
def pyTruthyInt : Option Int → Bool
  | none => false
  | some n => !(n == 0)

/-- Embeds delete_document (database.py lines 142-157): look up the row by
id, enforcing ownership only when a truthy user_id is given, and return the
filename of the deleted row, or none when no row matches. -/
def delete_document (docs : List DocRecord) (doc_id : Nat)
    (user_id : Option Int) : Option String :=
  if pyTruthyInt user_id then
    (docs.find? (fun d => d.id == doc_id && d.user_id == user_id.getD 0)).map
      DocRecord.filename
  else
    (docs.find? (fun d => d.id == doc_id)).map DocRecord.filename

/-- Embeds the DELETE users endpoint remove_user (main.py lines 100-106):
an admin removes the account with the given id, and the vector-store delete
is issued with delete_user_vectors applied to that id with no filename.
Returns the Filter passed to the vector store. -/
def remove_user (target_user_id : Int) : Filter :=
  delete_user_vectors target_user_id none

/-- Embeds the DELETE documents endpoint remove_document (main.py lines
175-187): the document row is resolved with the caller id as ownership
scope only for non-admin callers, then the vector-store delete is issued
with delete_user_vectors applied to THE CALLER id and the resolved
filename.  Returns the Filter passed to the vector store, or none when the
endpoint answers 404. -/
def remove_document (docs : List DocRecord) (doc_id : Nat)
    (caller_id : Int) (caller_role : String) : Option Filter :=
  let filename := if caller_role = "admin"
    then delete_document docs doc_id none
    else delete_document docs doc_id (some caller_id)
  filename.map (fun f => delete_user_vectors caller_id (some f))

/-- A point upserted at ingestion (rag.py lines 156-167).  The uuid4 id is
modelled by the chunk position, which is immaterial to the claims. -/
structure Point where
  id : Nat
  user_id : Int
  filename : String
  chunk_index : Nat
  text : List Char
deriving DecidableEq

/-- The outcome of ingest_document: either the chunk count, or the
ValueError raised on empty extracted text or zero chunks. -/
inductive IngestOutcome where
  | ok (chunk_count : Nat)
  | validationError (msg : String)
deriving DecidableEq

/-- Observable behaviour of one ingest_document call: the texts sent to the
embedding service in order, the batches written to the vector store in
order, and the outcome. -/
structure IngestTrace where
  embed_calls : List (List Char)
  upsert_batches : List (List Point)
  result : IngestOutcome
deriving DecidableEq

/-- Batching of the upsert (rag.py lines 171-174): groups of batch_size
points in order. -/
def toBatches (bs : Nat) (l : List Point) : List (List Point) :=
  if l = [] then []
  else if bs = 0 then []
  else l.take bs :: toBatches bs (l.drop bs)
termination_by l.length
decreasing_by
  rename_i h hbs
  have hlen : 0 < l.length := List.length_pos.mpr h
  rw [List.length_drop]
  omega

/-- Embeds ingest_document (rag.py lines 132-176) after text extraction.
The two validation checks run before any embedding call or upsert; on the
success path one embedding call is issued per chunk in order, and the
points are upserted in batches of 100. -/
def ingest_document (user_id : Int) (filename : String) (text : List Char) :
    IngestTrace :=
  if pyStrip text = [] then
    { embed_calls := []
      upsert_batches := []
      result := .validationError "No text could be extracted from the document" }
  else
    let chunks := chunk_text text
    if chunks = [] then
      { embed_calls := []
        upsert_batches := []
        result := .validationError "Document produced no chunks after processing" }
    else
      let points := chunks.enum.map
        (fun ic => { id := ic.1, user_id := user_id, filename := filename,
                     chunk_index := ic.1, text := ic.2 : Point })
      { embed_calls := chunks
        upsert_batches := toBatches 100 points
        result := .ok chunks.length }

/-- The store contents after applying the upsert batches of an ingest call. -/
def storeAfterIngest (store : List Point) (tr : IngestTrace) : List Point :=
  store ++ tr.upsert_batches.flatten

/-- The fields of a qdrant get_collection answer that the stats path reads. -/
structure CollectionInfo where
  points_count : Nat
  status : String
deriving DecidableEq

/-- The dict returned by get_collection_stats. -/
structure StatsResult where
  total_vectors : Nat
  status : String
deriving DecidableEq

/-- Embeds get_collection_stats (rag.py lines 277-287).  The external
get_collection call is a parameter; a raised exception is the error case,
and the try/except makes the function total: the error case degrades to a
zero count and unknown status. -/
def get_collection_stats (lookup : Except String CollectionInfo) : StatsResult :=
  match lookup with
  | .ok info => { total_vectors := info.points_count, status := info.status }
  | .error _ => { total_vectors := 0, status := "unknown" }

def llm0 : String → String → String := fun _ _ => "answer"

def demoPoints : List ScoredPoint :=
  [ { payload := { user_id := 7, filename := "a.txt", chunk_index := 0, text := "alpha" },
      score := 1 },
    { payload := { user_id := 8, filename := "b.txt", chunk_index := 1, text := "beta" },
      score := 2 } ]

/-- A demo store behaviour honouring the filter contract: it returns the
demo points that satisfy the supplied filter. -/
def demoSearch : Option Filter → Nat → List ScoredPoint :=
  fun f _ => demoPoints.filter
    (fun p => matchesFilter p.payload (f.getD { must := [] }))

def emptySearch : Option Filter → Nat → List ScoredPoint := fun _ _ => []


-- Basic lemmas about the embedding of the text processing.

theorem chunkLoop_succ (f : Nat) (t : List Char) (s : Nat) :
    chunkLoop (f + 1) t s =
      if s < t.length then
        (if pyStrip ((t.drop s).take CHUNK_SIZE) = [] then []
         else [pyStrip ((t.drop s).take CHUNK_SIZE)])
          ++ chunkLoop f t (s + (CHUNK_SIZE - CHUNK_OVERLAP))
      else [] := rfl

theorem collapseWS_nil : collapseWS [] = [] := rfl

theorem collapseWS_cons_not_ws {a : Char} {rest : List Char} (ha : wsChar a = false) :
    collapseWS (a :: rest) = a :: collapseWS rest := by
  simp [collapseWS, ha]

theorem collapseWS_ws_nil {a : Char} (ha : wsChar a = true) :
    collapseWS [a] = [' '] := by
  simp [collapseWS, ha]

theorem collapseWS_ws_ws {a b : Char} {r : List Char}
    (ha : wsChar a = true) (hb : wsChar b = true) :
    collapseWS (a :: b :: r) = collapseWS (b :: r) := by
  simp only [collapseWS, ha, if_true, hb]

theorem collapseWS_ws_not {a b : Char} {r : List Char}
    (ha : wsChar a = true) (hb : wsChar b = false) :
    collapseWS (a :: b :: r) = ' ' :: collapseWS (b :: r) := by
  simp only [collapseWS, ha, if_true, hb, Bool.false_eq_true, if_false]

theorem pyStrip_eq_nil_iff {l : List Char} :
    pyStrip l = [] ↔ ∀ c ∈ l, wsChar c := by
  unfold pyStrip
  rw [List.rdropWhile_eq_nil_iff]
  constructor
  · intro h c hc
    rcases (List.takeWhile_append_dropWhile (p := wsChar) (l := l)) ▸ hc with h'
    rcases List.mem_append.mp h' with h1 | h2
    · exact List.mem_takeWhile_imp h1
    · exact h c h2
  · intro h c hc
    exact h c (List.IsSuffix.mem hc (List.dropWhile_suffix wsChar))

theorem pyStrip_idem (l : List Char) : pyStrip (pyStrip l) = pyStrip l := by
  unfold pyStrip
  have hA : List.dropWhile wsChar (List.rdropWhile wsChar (List.dropWhile wsChar l))
      = List.rdropWhile wsChar (List.dropWhile wsChar l) := by
    set A := List.dropWhile wsChar l with hAdef
    have hfix : List.dropWhile wsChar A = A := by
      rw [hAdef]
      exact List.dropWhile_idempotent wsChar l
    rw [List.dropWhile_eq_self_iff]
    intro hl
    obtain ⟨u, hu⟩ := List.rdropWhile_prefix wsChar A
    have hlenA : 0 < A.length := by
      have := List.IsPrefix.length_le (⟨u, hu⟩ : List.rdropWhile wsChar A <+: A)
      omega
    have hget : (List.rdropWhile wsChar A).get ⟨0, hl⟩ = A.get ⟨0, hlenA⟩ := by
      have := List.IsPrefix.getElem (⟨u, hu⟩ : List.rdropWhile wsChar A <+: A) hl
      simpa [List.get_eq_getElem] using this
    rw [hget]
    exact (List.dropWhile_eq_self_iff.mp hfix) hlenA
  rw [hA, List.rdropWhile_idempotent]

/-- Adjacent characters in the output of collapseWS are never both
whitespace: whitespace runs have been collapsed. -/
theorem collapseWS_chain (l : List Char) :
    List.Chain' (fun a b => ¬(wsChar a ∧ wsChar b)) (collapseWS l) := by
  induction l with
  | nil => simp [collapseWS_nil]
  | cons a rest ih =>
    cases ha : wsChar a with
    | true =>
      cases rest with
      | nil => simp [collapseWS_ws_nil ha]
      | cons b r =>
        cases hb : wsChar b with
        | true => rw [collapseWS_ws_ws ha hb]; exact ih
        | false =>
          rw [collapseWS_ws_not ha hb]
          rw [collapseWS_cons_not_ws hb] at ih ⊢
          exact ih.cons (by simp [hb])
    | false =>
      rw [collapseWS_cons_not_ws ha]
      refine List.chain'_cons'.mpr ⟨?_, ih⟩
      intro y _
      simp [ha]

theorem collapseWS_mem {c : Char} {l : List Char} (h : c ∈ collapseWS l) :
    c = ' ' ∨ c ∈ l := by
  induction l with
  | nil => simp [collapseWS_nil] at h
  | cons a rest ih =>
    cases ha : wsChar a with
    | true =>
      cases rest with
      | nil =>
        rw [collapseWS_ws_nil ha] at h
        simp at h
        exact Or.inl h
      | cons b r =>
        cases hb : wsChar b with
        | true =>
          rw [collapseWS_ws_ws ha hb] at h
          rcases ih h with h1 | h2
          · exact Or.inl h1
          · exact Or.inr (List.mem_cons_of_mem a h2)
        | false =>
          rw [collapseWS_ws_not ha hb] at h
          rcases List.mem_cons.mp h with h1 | h2
          · exact Or.inl h1
          · rcases ih h2 with h3 | h4
            · exact Or.inl h3
            · exact Or.inr (List.mem_cons_of_mem a h4)
    | false =>
      rw [collapseWS_cons_not_ws ha] at h
      rcases List.mem_cons.mp h with h1 | h2
      · exact Or.inr (by simp [h1])
      · rcases ih h2 with h3 | h4
        · exact Or.inl h3
        · exact Or.inr (List.mem_cons_of_mem a h4)

theorem collapseWS_mem_of_not_ws {c : Char} {l : List Char}
    (hc : c ∈ l) (hw : wsChar c = false) : c ∈ collapseWS l := by
  induction l with
  | nil => simp at hc
  | cons a rest ih =>
    cases ha : wsChar a with
    | true =>
      have hcr : c ∈ rest := by
        rcases List.mem_cons.mp hc with h1 | h2
        · rw [h1, ha] at hw; cases hw
        · exact h2
      cases rest with
      | nil => simp at hcr
      | cons b r =>
        cases hb : wsChar b with
        | true => rw [collapseWS_ws_ws ha hb]; exact ih hcr
        | false =>
          rw [collapseWS_ws_not ha hb]
          exact List.mem_cons_of_mem _ (ih hcr)
    | false =>
      rw [collapseWS_cons_not_ws ha]
      rcases List.mem_cons.mp hc with h1 | h2
      · simp [h1]
      · exact List.mem_cons_of_mem a (ih h2)

theorem collapseWS_length_le (l : List Char) :
    (collapseWS l).length ≤ l.length := by
  induction l with
  | nil => simp [collapseWS_nil]
  | cons a rest ih =>
    cases ha : wsChar a with
    | true =>
      cases rest with
      | nil => simp [collapseWS_ws_nil ha]
      | cons b r =>
        cases hb : wsChar b with
        | true =>
          rw [collapseWS_ws_ws ha hb]
          simp only [List.length_cons] at ih ⊢
          omega
        | false =>
          rw [collapseWS_ws_not ha hb]
          simp only [List.length_cons] at ih ⊢
          omega
    | false =>
      rw [collapseWS_cons_not_ws ha]
      simp only [List.length_cons] at ih ⊢
      omega

theorem pyStrip_length_le (l : List Char) : (pyStrip l).length ≤ l.length := by
  unfold pyStrip
  have h1 := List.IsPrefix.length_le
    (List.rdropWhile_prefix wsChar (List.dropWhile wsChar l))
  have h2 := List.IsSuffix.length_le (List.dropWhile_suffix (l := l) wsChar)
  omega

/-- The normalized text used by chunk_text is a fixed point of pyStrip. -/
theorem pyStrip_normalized (t : List Char) :
    pyStrip (pyStrip (collapseWS t)) = pyStrip (collapseWS t) :=
  pyStrip_idem _

/-- The normalized text keeps the no-adjacent-whitespace property. -/
theorem normalized_chain (t : List Char) :
    List.Chain' (fun a b => ¬(wsChar a ∧ wsChar b)) (pyStrip (collapseWS t)) := by
  have h := collapseWS_chain t
  unfold pyStrip
  have h1 : List.Chain' (fun a b => ¬(wsChar a ∧ wsChar b))
      (List.dropWhile wsChar (collapseWS t)) :=
    h.suffix (List.dropWhile_suffix wsChar)
  obtain ⟨u, hu⟩ := List.rdropWhile_prefix wsChar (List.dropWhile wsChar (collapseWS t))
  rw [← hu] at h1
  exact h1.left_of_append

/-- A list with no two adjacent whitespace characters and at least two
elements contains a non-whitespace character. -/
theorem chain_not_all_ws {l : List Char}
    (h : List.Chain' (fun a b => ¬(wsChar a ∧ wsChar b)) l)
    (hl : 2 ≤ l.length) : ¬ ∀ c ∈ l, wsChar c := by
  match l, hl with
  | a :: b :: r, _ =>
    intro hall
    have hab := (List.chain'_cons.mp h).1
    exact hab ⟨hall a (by simp), hall b (by simp)⟩

theorem chunk_step_eq : CHUNK_SIZE - CHUNK_OVERLAP = 450 := rfl

theorem collapseWS_id_of_not_ws {l : List Char}
    (h : ∀ c ∈ l, wsChar c = false) : collapseWS l = l := by
  induction l with
  | nil => rfl
  | cons a rest ih =>
    rw [collapseWS_cons_not_ws (h a (by simp))]
    rw [ih (fun c hc => h c (List.mem_cons_of_mem a hc))]

theorem pyStrip_id_of_not_ws {l : List Char}
    (h : ∀ c ∈ l, wsChar c = false) : pyStrip l = l := by
  unfold pyStrip
  have h1 : List.dropWhile wsChar l = l := by
    rw [List.dropWhile_eq_self_iff]
    intro hl
    simp [List.get_eq_getElem, h _ (List.getElem_mem hl)]
  rw [h1, List.rdropWhile_eq_self_iff]
  intro hl
  simp [h _ (List.getLast_mem hl)]

theorem drop_replicate (n m : Nat) (a : Char) :
    (List.replicate m a).drop n = List.replicate (m - n) a := by
  induction n generalizing m with
  | zero => simp
  | succ n ih =>
    cases m with
    | zero => simp
    | succ m =>
      rw [List.replicate_succ, List.drop_succ_cons, ih]
      congr 1
      omega

theorem take_replicate_of_le {n m : Nat} (h : m ≤ n) (a : Char) :
    (List.replicate m a).take n = List.replicate m a :=
  List.take_of_length_le (by simpa using h)

/-- If the normalized text is nonempty and no longer than 450 characters,
the loop emits exactly the normalized text and stops. -/
theorem chunk_text_single (t : List Char)
    (hne : pyStrip (collapseWS t) ≠ [])
    (hlen : (pyStrip (collapseWS t)).length ≤ 450) :
    chunk_text t = [pyStrip (collapseWS t)] := by
  show chunkLoop ((pyStrip (collapseWS t)).length + 1) (pyStrip (collapseWS t)) 0
      = [pyStrip (collapseWS t)]
  set n := pyStrip (collapseWS t) with hn
  have hpos : 0 < n.length := List.length_pos.mpr hne
  obtain ⟨m, hm⟩ : ∃ m, n.length = m + 1 := ⟨n.length - 1, by omega⟩
  rw [hm, chunkLoop_succ, if_pos (by omega : 0 < n.length)]
  have htake : (n.drop 0).take CHUNK_SIZE = n := by
    rw [List.drop_zero]
    exact List.take_of_length_le (by simp [CHUNK_SIZE]; omega)
  rw [htake]
  have hstrip : pyStrip n = n := by rw [hn]; exact pyStrip_idem _
  rw [hstrip, if_neg hne, chunk_step_eq, chunkLoop_succ,
    if_neg (by omega : ¬ (0 + 450 < n.length)), List.append_nil]

/-- A whitespace-only input normalizes to the empty list, and the loop
immediately exits. -/
theorem chunk_text_all_ws (t : List Char) (h : ∀ c ∈ t, wsChar c) :
    chunk_text t = [] := by
  have hall : ∀ c ∈ collapseWS t, wsChar c := by
    intro c hc
    rcases collapseWS_mem hc with h1 | h2
    · rw [h1]; rfl
    · exact h c h2
  have hnil : pyStrip (collapseWS t) = [] := pyStrip_eq_nil_iff.mpr hall
  show chunkLoop ((pyStrip (collapseWS t)).length + 1) (pyStrip (collapseWS t)) 0 = []
  rw [hnil]
  rfl

/-- A nonempty stripped window exists inside any window of the normalized
text that has at least two characters. -/
theorem window_strip_ne_nil {w : List Char}
    (hchain : List.Chain' (fun a b => ¬(wsChar a ∧ wsChar b)) w)
    (hlen : 2 ≤ w.length) : pyStrip w ≠ [] := by
  intro hnil
  exact chain_not_all_ws hchain hlen (pyStrip_eq_nil_iff.mp hnil)

/-- C3: the spec asserts that any input whose whitespace-normalized form is
nonempty and SHORTER THAN THE WINDOW SIZE (500) yields exactly one chunk.
This is false: a normalized text of 460 characters is shorter than the
window, yet the loop advances by 450 and emits a second chunk from the final
10 characters.  Concrete refutation at 460 repeated letters. -/
theorem c3_counterexample :
    (pyStrip (collapseWS (List.replicate 460 'a'))).length = 460 ∧
    (pyStrip (collapseWS (List.replicate 460 'a'))).length < 500 ∧
    (chunk_text (List.replicate 460 'a')).length = 2 := by
  have hnw : ∀ n, ∀ c ∈ List.replicate n 'a', wsChar c = false := by
    intro n c hc
    rw [List.eq_of_mem_replicate hc]
    rfl
  have hid : ∀ n, pyStrip (collapseWS (List.replicate n 'a')) = List.replicate n 'a' := by
    intro n
    rw [collapseWS_id_of_not_ws (hnw n), pyStrip_id_of_not_ws (hnw n)]
  have hrep_ne : ∀ n : Nat, 0 < n → ¬ (List.replicate n 'a' = []) := by
    intro n hn hcontra
    have := congrArg List.length hcontra
    rw [List.length_replicate] at this
    simp at this
    omega
  refine ⟨by rw [hid]; exact List.length_replicate 460 'a',
    by rw [hid, List.length_replicate]; omega, ?_⟩
  show (chunkLoop ((pyStrip (collapseWS (List.replicate 460 'a'))).length + 1)
    (pyStrip (collapseWS (List.replicate 460 'a'))) 0).length = 2
  rw [hid, List.length_replicate, chunkLoop_succ,
    if_pos (by rw [List.length_replicate]; omega :
      0 < (List.replicate 460 'a').length),
    List.drop_zero,
    take_replicate_of_le (by decide) 'a',
    pyStrip_id_of_not_ws (hnw 460),
    if_neg (hrep_ne 460 (by omega)), chunk_step_eq,
    show (460 : Nat) = 459 + 1 from rfl, chunkLoop_succ,
    if_pos (by rw [List.length_replicate]; omega :
      0 + 450 < (List.replicate 460 'a').length),
    drop_replicate,
    take_replicate_of_le (by decide) 'a',
    pyStrip_id_of_not_ws (hnw _),
    if_neg (hrep_ne (460 - (0 + 450)) (by omega)),
    chunk_step_eq, chunkLoop_succ,
    if_neg (by rw [List.length_replicate]; omega :
      ¬ (0 + 450 + 450 < (List.replicate 460 'a').length))]
  rfl

/-- C3 (amended): for every input text whose whitespace-normalized form is
nonempty and at most 450 characters (window size minus overlap), chunk_text
yields exactly one chunk, the normalized text itself; and for every
whitespace-only (including empty) input, chunk_text yields the empty
sequence. -/
theorem c3_chunk_edge_cases (t : List Char) :
    (pyStrip (collapseWS t) ≠ [] → (pyStrip (collapseWS t)).length ≤ 450 →
      chunk_text t = [pyStrip (collapseWS t)]) ∧
    ((∀ c ∈ t, wsChar c) → chunk_text t = []) :=
  ⟨fun hne hlen => chunk_text_single t hne hlen, fun h => chunk_text_all_ws t h⟩

/-- C3 witness: instantiation of the amended claim at concrete inputs. -/
theorem c3_chunk_edge_cases_witness :
    chunk_text "  hello   world  ".toList
        = [pyStrip (collapseWS "  hello   world  ".toList)] ∧
    chunk_text "   ".toList = [] :=
  ⟨(c3_chunk_edge_cases _).1 (by decide) (by decide),
   (c3_chunk_edge_cases _).2 (by decide)⟩

/-- C8: chunking a 1200-character whitespace-normalized string yields
exactly three chunks, the stripped windows starting at offsets 0, 450 and
900 (each start advancing by 450); and any string shorter than 450
characters containing a non-whitespace character yields exactly one chunk.
Being whitespace-normalized is expressed as being a fixed point of the
normalization performed at the top of chunk_text. -/
theorem c8_chunk_windows (t : List Char) :
    (pyStrip (collapseWS t) = t → t.length = 1200 →
      chunk_text t = [pyStrip (t.take CHUNK_SIZE),
                      pyStrip ((t.drop 450).take CHUNK_SIZE),
                      pyStrip ((t.drop 900).take CHUNK_SIZE)]) ∧
    (t.length < 450 → (∃ c ∈ t, wsChar c = false) →
      (chunk_text t).length = 1) := by
  constructor
  · intro hnorm hlen
    have hchain : List.Chain' (fun a b => ¬(wsChar a ∧ wsChar b)) t := by
      have h := normalized_chain t
      rwa [hnorm] at h
    have hw0 : pyStrip (t.take CHUNK_SIZE) ≠ [] := by
      refine window_strip_ne_nil (hchain.take _) ?_
      simp [CHUNK_SIZE, hlen]
    have hw1 : pyStrip ((t.drop 450).take CHUNK_SIZE) ≠ [] := by
      refine window_strip_ne_nil ((hchain.drop _).take _) ?_
      simp [CHUNK_SIZE, hlen]
    have hw2 : pyStrip ((t.drop 900).take CHUNK_SIZE) ≠ [] := by
      refine window_strip_ne_nil ((hchain.drop _).take _) ?_
      simp [CHUNK_SIZE, hlen]
    show chunkLoop ((pyStrip (collapseWS t)).length + 1) (pyStrip (collapseWS t)) 0 = _
    rw [hnorm, hlen, chunkLoop_succ, if_pos (by omega : 0 < t.length),
      List.drop_zero, if_neg hw0, chunk_step_eq]
    rw [show (0 + 450 : Nat) = 450 from rfl,
      show (1200 : Nat) = 1199 + 1 from rfl, chunkLoop_succ,
      if_pos (by omega : 450 < t.length), if_neg hw1, chunk_step_eq]
    rw [show (450 + 450 : Nat) = 900 from rfl,
      show (1199 : Nat) = 1198 + 1 from rfl, chunkLoop_succ,
      if_pos (by omega : 900 < t.length), if_neg hw2, chunk_step_eq]
    rw [show (900 + 450 : Nat) = 1350 from rfl,
      show (1198 : Nat) = 1197 + 1 from rfl, chunkLoop_succ,
      if_neg (by omega : ¬ (1350 < t.length))]
    rfl
  · intro hshort ⟨c, hc, hcw⟩
    have hne : pyStrip (collapseWS t) ≠ [] := by
      intro hnil
      have := pyStrip_eq_nil_iff.mp hnil c (collapseWS_mem_of_not_ws hc hcw)
      rw [hcw] at this
      cases this
    have hlen : (pyStrip (collapseWS t)).length ≤ 450 := by
      have h1 := pyStrip_length_le (collapseWS t)
      have h2 := collapseWS_length_le t
      omega
    rw [chunk_text_single t hne hlen]
    rfl

/-- C8 witness: instantiation at 1200 repeated letters and at a short
concrete string. -/
theorem c8_chunk_windows_witness :
    chunk_text (List.replicate 1200 'a')
      = [pyStrip ((List.replicate 1200 'a').take CHUNK_SIZE),
         pyStrip (((List.replicate 1200 'a').drop 450).take CHUNK_SIZE),
         pyStrip (((List.replicate 1200 'a').drop 900).take CHUNK_SIZE)] ∧
    (chunk_text "short text".toList).length = 1 := by
  have hnw : ∀ c ∈ List.replicate 1200 'a', wsChar c = false := by
    intro c hc
    rw [List.eq_of_mem_replicate hc]
    rfl
  exact ⟨(c8_chunk_windows _).1
      (by rw [collapseWS_id_of_not_ws hnw, pyStrip_id_of_not_ws hnw])
      (List.length_replicate 1200 'a'),
    (c8_chunk_windows _).2 (by decide) ⟨'s', by decide, by decide⟩⟩

-- Helper lemmas characterizing the observable fields of query_rag.

theorem query_rag_sources_eq (llm : String → String → String)
    (search : Option Filter → Nat → List ScoredPoint)
    (question : String) (user_id : Int) (role : String) (top_k : Nat) :
    (query_rag llm search question user_id role top_k).result.sources
      = (search (buildQueryFilter role user_id) top_k).map mkSource := by
  unfold query_rag
  by_cases h : search (buildQueryFilter role user_id) top_k = []
  · simp [h]
  · simp [h]

theorem query_rag_filter_used_eq (llm : String → String → String)
    (search : Option Filter → Nat → List ScoredPoint)
    (question : String) (user_id : Int) (role : String) (top_k : Nat) :
    (query_rag llm search question user_id role top_k).filter_used
      = buildQueryFilter role user_id := by
  unfold query_rag
  by_cases h : search (buildQueryFilter role user_id) top_k = []
  · simp [h]
  · simp [h]

theorem query_rag_chunks_eq (llm : String → String → String)
    (search : Option Filter → Nat → List ScoredPoint)
    (question : String) (user_id : Int) (role : String) (top_k : Nat) :
    (query_rag llm search question user_id role top_k).result.chunks_searched
      = (search (buildQueryFilter role user_id) top_k).length := by
  unfold query_rag
  by_cases h : search (buildQueryFilter role user_id) top_k = []
  · simp [h]
  · simp [h]

theorem buildQueryFilter_of_ne_admin {role : String} (user_id : Int)
    (hrole : role ≠ "admin") :
    buildQueryFilter role user_id
      = some { must := [FieldCondition.userIdEq user_id] } := by
  unfold buildQueryFilter
  rw [if_neg hrole]

/-- C1: for every query issued with a non-admin role, assuming the vector
store returns only records satisfying the supplied filter, every source
entry of the RetrievalResult returned by query_rag has owner_id equal to
the caller user_id. -/
theorem c1_rbac_containment (llm : String → String → String)
    (search : Option Filter → Nat → List ScoredPoint)
    (question : String) (user_id : Int) (role : String) (top_k : Nat)
    (hrole : role ≠ "admin")
    (hstore : ∀ f k p, p ∈ search (some f) k → matchesFilter p.payload f = true) :
    ∀ s ∈ (query_rag llm search question user_id role top_k).result.sources,
      s.owner_id = user_id := by
  intro s hs
  rw [query_rag_sources_eq, buildQueryFilter_of_ne_admin user_id hrole] at hs
  obtain ⟨p, hp, rfl⟩ := List.mem_map.mp hs
  have hm := hstore _ _ p hp
  simp only [matchesFilter, matchesCondition, List.all_cons, List.all_nil,
    Bool.and_true] at hm
  simpa [mkSource] using hm

/-- C1 witness. -/
theorem c1_rbac_containment_witness :
    (query_rag llm0 demoSearch "q" 7 "user" 5).result.sources.all
      (fun s => s.owner_id == 7) = true := by
  rw [List.all_eq_true]
  intro s hs
  have h := c1_rbac_containment llm0 demoSearch "q" 7 "user" 5 (by decide)
    (fun _ _ _ hp => (List.mem_filter.mp hp).2) s hs
  simp [h]

/-- C4: whenever the filtered search returns zero records, query_rag
returns the fixed no-accessible-documents answer with an empty sources list
and zero chunks_searched, and the generation client is not invoked. -/
theorem c4_empty_search_short_circuit (llm : String → String → String)
    (search : Option Filter → Nat → List ScoredPoint)
    (question : String) (user_id : Int) (role : String) (top_k : Nat)
    (hempty : search (buildQueryFilter role user_id) top_k = []) :
    query_rag llm search question user_id role top_k =
      { result := { answer := NO_DOCS_ANSWER, sources := [], chunks_searched := 0 }
        llm_invoked := false
        filter_used := buildQueryFilter role user_id } := by
  unfold query_rag
  simp [hempty]

/-- C4 witness. -/
theorem c4_empty_search_short_circuit_witness :
    query_rag llm0 emptySearch "q" 3 "user" 5 =
      { result := { answer := NO_DOCS_ANSWER, sources := [], chunks_searched := 0 }
        llm_invoked := false
        filter_used := buildQueryFilter "user" 3 } :=
  c4_empty_search_short_circuit llm0 emptySearch "q" 3 "user" 5 rfl

/-- C6: for every role string other than admin, including strings outside
the user and admin enumeration, query_rag passes the equality filter on the
caller user_id to the search, so an unrecognized role never reaches the
unfiltered search. -/
theorem c6_non_admin_always_filtered (llm : String → String → String)
    (search : Option Filter → Nat → List ScoredPoint)
    (question : String) (user_id : Int) (role : String) (top_k : Nat)
    (hrole : role ≠ "admin") :
    (query_rag llm search question user_id role top_k).filter_used
      = some { must := [FieldCondition.userIdEq user_id] } := by
  rw [query_rag_filter_used_eq]
  exact buildQueryFilter_of_ne_admin user_id hrole

/-- C6 witness, at a role string outside the enumeration. -/
theorem c6_non_admin_always_filtered_witness :
    (query_rag llm0 demoSearch "q" 3 "superuser" 5).filter_used
      = some { must := [FieldCondition.userIdEq 3] } :=
  c6_non_admin_always_filtered llm0 demoSearch "q" 3 "superuser" 5 (by decide)

/-- C10: in every RetrievalResult of query_rag the sources length equals
chunks_searched; under the assumption that the store returns at most limit
points, chunks_searched is at most top_k; and the sources list is exactly
the retrieved records in their returned (search-ranked) order. -/
theorem c10_result_shape (llm : String → String → String)
    (search : Option Filter → Nat → List ScoredPoint)
    (question : String) (user_id : Int) (role : String) (top_k : Nat)
    (hlim : (search (buildQueryFilter role user_id) top_k).length ≤ top_k) :
    (query_rag llm search question user_id role top_k).result.sources.length
        = (query_rag llm search question user_id role top_k).result.chunks_searched
      ∧ (query_rag llm search question user_id role top_k).result.chunks_searched
        ≤ top_k
      ∧ (query_rag llm search question user_id role top_k).result.sources
        = (search (buildQueryFilter role user_id) top_k).map mkSource := by
  refine ⟨?_, ?_, query_rag_sources_eq llm search question user_id role top_k⟩
  · rw [query_rag_sources_eq, query_rag_chunks_eq, List.length_map]
  · rw [query_rag_chunks_eq]
    exact hlim

/-- C10 witness. -/
theorem c10_result_shape_witness :
    (query_rag llm0 demoSearch "q" 7 "admin" 5).result.sources.length
        = (query_rag llm0 demoSearch "q" 7 "admin" 5).result.chunks_searched
      ∧ (query_rag llm0 demoSearch "q" 7 "admin" 5).result.chunks_searched ≤ 5
      ∧ (query_rag llm0 demoSearch "q" 7 "admin" 5).result.sources
        = (demoSearch (buildQueryFilter "admin" 7) 5).map mkSource :=
  c10_result_shape llm0 demoSearch "q" 7 "admin" 5 (by decide)

/-- C9: a delete with the empty string as filename builds the same filter
as a delete with the filename omitted, because the empty string is falsy;
consequently all records of the owner are deleted, not only those of an
empty-named file. -/
theorem c9_empty_filename_unscoped (user_id : Int)
    (store : List VectorPayload) :
    delete_user_vectors user_id (some "") = delete_user_vectors user_id none
      ∧ runDelete store (delete_user_vectors user_id (some ""))
        = store.filter (fun r => !(r.user_id == user_id)) := by
  constructor
  · rfl
  · unfold runDelete delete_user_vectors
    simp [pyTruthyStr, matchesFilter, matchesCondition]

/-- C2: the claim that every vector-deletion filter is scoped to the
affected owner fails in the code.  The account-removal path is correctly
scoped to the removed user; but when an administrator (id 1) removes a
document owned by user 2 through the document-removal endpoint, the delete
filter is scoped to the administrator identity 1, not to the affected
owner 2. -/
theorem c2_admin_document_delete_misscoped :
    remove_user 2 = { must := [FieldCondition.userIdEq 2] }
      ∧ remove_document [{ id := 1, user_id := 2, filename := "doc.txt" }]
          1 1 "admin"
        = some { must := [FieldCondition.userIdEq 1,
                          FieldCondition.filenameEq "doc.txt"] }
      ∧ (1 : Int) ≠ 2 := by
  refine ⟨rfl, by decide, by decide⟩

/-- C5: when the extracted text strips to nothing, or chunking yields no
chunks, ingest_document raises the validation error before any embedding
call and before any upsert, and the vector store is unchanged. -/
theorem c5_validation_before_network (user_id : Int) (filename : String)
    (text : List Char) (store : List Point)
    (h : pyStrip text = [] ∨ chunk_text text = []) :
    (ingest_document user_id filename text).embed_calls = []
      ∧ (ingest_document user_id filename text).upsert_batches = []
      ∧ (∃ msg, (ingest_document user_id filename text).result
          = .validationError msg)
      ∧ storeAfterIngest store (ingest_document user_id filename text)
          = store := by
  by_cases hs : pyStrip text = []
  · refine ⟨?_, ?_, ⟨"No text could be extracted from the document", ?_⟩, ?_⟩ <;>
      simp [ingest_document, hs, storeAfterIngest]
  · have hc : chunk_text text = [] := h.resolve_left hs
    refine ⟨?_, ?_, ⟨"Document produced no chunks after processing", ?_⟩, ?_⟩ <;>
      simp [ingest_document, hs, hc, storeAfterIngest]

/-- C5 witness, at a whitespace-only extracted text. -/
theorem c5_validation_before_network_witness :
    (ingest_document 4 "empty.txt" [' ']).embed_calls = []
      ∧ (ingest_document 4 "empty.txt" [' ']).upsert_batches = []
      ∧ (∃ msg, (ingest_document 4 "empty.txt" [' ']).result
          = .validationError msg)
      ∧ storeAfterIngest
          [{ id := 0, user_id := 9, filename := "old.txt", chunk_index := 0,
             text := ['x'] }]
          (ingest_document 4 "empty.txt" [' '])
        = [{ id := 0, user_id := 9, filename := "old.txt", chunk_index := 0,
             text := ['x'] }] :=
  c5_validation_before_network 4 "empty.txt" [' '] _ (Or.inl (by decide))

/-- C7: the stats path is total; on the error case of the collection lookup
it returns a zero count with the unknown status, and on success it returns
the collection point count and status. -/
theorem c7_stats_degrade (lookup : Except String CollectionInfo) :
    (∀ e, lookup = .error e →
      get_collection_stats lookup
        = { total_vectors := 0, status := "unknown" })
      ∧ (∀ info, lookup = .ok info →
          get_collection_stats lookup
            = { total_vectors := info.points_count, status := info.status }) := by
  constructor
  · rintro e rfl
    rfl
  · rintro info rfl
    rfl

/-- C7 witness. -/
theorem c7_stats_degrade_witness :
    get_collection_stats (.error "connection refused")
        = { total_vectors := 0, status := "unknown" }
      ∧ get_collection_stats (.ok { points_count := 42, status := "green" })
        = { total_vectors := 42, status := "green" } :=
  ⟨(c7_stats_degrade _).1 _ rfl, (c7_stats_degrade _).2 _ rfl⟩

end RagRbac
